import Mathlib

/-!
Shallow embedding of `build_idevice_ffi_xcframework.py`, the XCFramework
build orchestrator of the `idevice` repository, together with theorems
about its behaviour.

The script is a sequential orchestration of external command-line tools
(cargo, rustup, ar, vtool, lipo) plus filesystem operations.  We embed it
as a writer/state/except computation:

* a `World` records the behaviour of the external environment: whether
  each external command succeeds, what it prints, which files the
  compiler actually produces, and what members an archive holds;
* a `FS` is the set of filesystem paths that currently exist;
* running a program yields the final `FS`, a `Trace` of observable events
  (log lines, external command invocations, the Info.plist write), and an
  `Except` value mirroring Python exception propagation.

Python string operations (`in`, `.strip()`, `.split()`, `.endswith`,
sorting) are modelled by structural functions on character lists so that
every definition evaluates inside the kernel.
-/

/-! ## String utilities (models of the Python string operations used) -/

/-- `listBeginsWith s pat` is true when `pat` is an initial segment of `s`. -/
def listBeginsWith : List Char → List Char → Bool
  | _, [] => true
  | [], _ :: _ => false
  | a :: as, b :: bs => a == b && listBeginsWith as bs

/-- Scan for the last occurrence of `pat`; returns the characters after it. -/
def afterLastAux (pat : List Char) : List Char → Option (List Char)
  | [] => none
  | c :: cs =>
    match afterLastAux pat cs with
    | some r => some r
    | none => if listBeginsWith (c :: cs) pat then some ((c :: cs).drop pat.length) else none

/-- Python `pat in s` (substring containment). -/
def strContains (s pat : String) : Bool := (afterLastAux pat.data s.data).isSome

/-- Python `s.split(pat)[-1]`: the text after the last occurrence of `pat`
(`s` itself when `pat` does not occur). -/
def afterLastSplit (s pat : String) : String := ⟨(afterLastAux pat.data s.data).getD s.data⟩

def dropLeadingWs : List Char → List Char
  | [] => []
  | c :: cs => if c.isWhitespace then dropLeadingWs cs else c :: cs

/-- Python `s.strip()`. -/
def pyStrip (s : String) : String := ⟨(dropLeadingWs (dropLeadingWs s.data.reverse).reverse)⟩

def splitWsAux : List Char → List Char → List String
  | acc, [] => if acc.isEmpty then [] else [⟨acc.reverse⟩]
  | acc, c :: cs =>
    if c.isWhitespace then
      if acc.isEmpty then splitWsAux [] cs else (⟨acc.reverse⟩ : String) :: splitWsAux [] cs
    else splitWsAux (c :: acc) cs

/-- Python `s.split()` (split on whitespace runs, dropping empty pieces). -/
def pySplitWs (s : String) : List String := splitWsAux [] s.data

/-- Python `s.endswith(pat)`. -/
def strEndsWith (s pat : String) : Bool := listBeginsWith s.data.reverse pat.data.reverse

def charListLe : List Char → List Char → Bool
  | [], _ => true
  | _ :: _, [] => false
  | a :: as, b :: bs => if a = b then charListLe as bs else decide (a < b)

/-- Lexicographic comparison by code point, as Python string `<=`. -/
def strLe (a b : String) : Bool := charListLe a.data b.data

def insertSorted (x : String) : List String → List String
  | [] => [x]
  | y :: ys => if strLe x y then x :: y :: ys else y :: insertSorted x ys

/-- Python `sorted` on a list of strings (ascending lexicographic). -/
def sortStr (xs : List String) : List String := xs.foldr insertSorted []

/-- Python `s.lower()`. -/
def strLower (s : String) : String := ⟨s.data.map Char.toLower⟩

/-- Python `str(path.parent)`: drop the last `/`-separated component. -/
def parentDir (p : String) : String := afterLastSplit p "/" |>.data |> (fun suf => ⟨p.data.take (p.data.length - suf.length - 1)⟩)

/-! ## Data model -/

/-- One member object file of a static-library archive, carrying the
build-version metadata that `vtool` rewrites: the platform code and the
minimum / SDK version strings of the `LC_BUILD_VERSION` load command. -/
structure ObjMember where
  name : String
  platform : Nat
  minos : String
  sdk : String
deriving DecidableEq, Repr

/-- One platform configuration record of `self.platforms`.  The Python
dict either has the pair of keys `rust_target`/`arch` (single
architecture) or `rust_targets`/`archs` (several); we keep both as
options, mirroring key presence. -/
structure PlatformConfig where
  rust_target : Option String := none
  rust_targets : Option (List String) := none
  sdk : String
  arch : Option String := none
  archs : Option (List String) := none
  min_version : String
  platform_name : String
deriving DecidableEq, Repr

/-- The static platform table `self.platforms`, in insertion order. -/
def platforms : List (String × PlatformConfig) :=
  [("iphoneos",
    { rust_target := some "aarch64-apple-ios", sdk := "iphoneos", arch := some "arm64",
      min_version := "12.0", platform_name := "iOS" }),
   ("iphonesimulator",
    { rust_targets := some ["aarch64-apple-ios-sim", "x86_64-apple-ios"], sdk := "iphonesimulator",
      archs := some ["arm64", "x86_64"], min_version := "12.0", platform_name := "iOS Simulator" }),
   ("appletvos",
    { rust_target := some "aarch64-apple-tvos", sdk := "appletvos", arch := some "arm64",
      min_version := "12.0", platform_name := "tvOS" }),
   ("appletvsimulator",
    { rust_targets := some ["aarch64-apple-tvos-sim", "x86_64-apple-tvos"], sdk := "appletvsimulator",
      archs := some ["arm64", "x86_64"], min_version := "12.0", platform_name := "tvOS Simulator" }),
   ("macosx",
    { rust_targets := some ["aarch64-apple-darwin", "x86_64-apple-darwin"], sdk := "macosx",
      archs := some ["arm64", "x86_64"], min_version := "12.0", platform_name := "macOS" }),
   ("maccatalyst",
    { rust_targets := some ["aarch64-apple-ios-macabi", "x86_64-apple-ios-macabi"], sdk := "macosx",
      archs := some ["arm64", "x86_64"], min_version := "13.1", platform_name := "Mac Catalyst" })]

/-- `self.platforms[platform]` (total: defaults to an empty record, the
script only ever indexes with the six keys of the table). -/
def platformConfig (platform : String) : PlatformConfig :=
  (platforms.lookup platform).getD { sdk := "", min_version := "", platform_name := "" }

/-- One record of the `AvailableLibraries` array of the Info.plist. -/
structure LibraryEntry where
  binaryPath : String
  headersPath : String
  libraryIdentifier : String
  libraryPath : String
  supportedArchitectures : List String
  supportedPlatform : String
  supportedPlatformVariant : Option String
deriving DecidableEq, Repr

/-- The serialized Info.plist content. -/
structure InfoPlist where
  availableLibraries : List LibraryEntry
  cfBundlePackageType : String
  xcFrameworkFormatVersion : String
deriving DecidableEq, Repr

/-! ## Effects: errors, events, filesystem, worlds -/

/-- Python exceptions raised by the script. -/
inductive Err where
  | calledProcessError (argv : List String)
  | fileNotFoundError (msg : String)
  | fileExistsError (path : String)
  | valueError (msg : String)
deriving DecidableEq, Repr

/-- Observable events of a run. -/
inductive Event where
  | log (msg : String)
  | cmd (argv : List String)
  | writePlist (path : String) (content : InfoPlist)
deriving DecidableEq, Repr

abbrev Trace := List Event

/-- The filesystem, as the set (list) of currently existing paths. -/
abbrev FS := List String

def fsExists (fs : FS) (p : String) : Bool := fs.contains p

def underPath (root q : String) : Bool := q == root || listBeginsWith q.data (root ++ "/").data

def fsRmtree (fs : FS) (p : String) : FS := fs.filter (fun q => !(underPath p q))

def fsAdd (fs : FS) (p : String) : FS := p :: fs

/-- `shutil.copytree src dst`: `dst` and a copy of everything below `src`. -/
def fsCopyTree (fs : FS) (src dst : String) : FS :=
  dst :: ((fs.filter (fun q => listBeginsWith q.data (src ++ "/").data)).map
    (fun q => dst ++ (⟨q.data.drop (src.data.length)⟩ : String))) ++ fs

/-- The external environment: outcome and output of each external command
(keyed by its full argument vector), the compiler leaving its library at
the expected target path, the single fixed header file being present in
the crate, the members `ar x` extracts from an archive, and the ambient
environment variables read by the script. -/
structure World where
  cmdOk : List String → Bool
  cmdStdout : List String → String
  cmdStderr : List String → String
  builtLibExists : String → Bool
  arMembers : String → List ObjMember
  home : String := "/Users/dev"
  user : String := "dev"
  shell : String := "/bin/zsh"
  term : String := "xterm-256color"
  lang : String := "en_US.UTF-8"
  lcAll : String := "en_US.UTF-8"

/-- Result of running an embedded program. -/
structure Res (α : Type) where
  fs : FS
  tr : Trace
  out : Except Err α
deriving Repr

deriving instance DecidableEq for Except

deriving instance DecidableEq for Res

/-- The program monad: state (`FS`), writer (`Trace`), exceptions (`Err`).
A failing step keeps the trace and filesystem produced so far. -/
def M (α : Type) : Type := FS → Res α

def M.pure {α : Type} (a : α) : M α := fun fs => ⟨fs, [], .ok a⟩

def M.bind {α β : Type} (x : M α) (f : α → M β) : M β := fun fs =>
  match x fs with
  | ⟨fs', tr, .error e⟩ => ⟨fs', tr, .error e⟩
  | ⟨fs', tr, .ok a⟩ =>
    let r := f a fs'
    ⟨r.fs, tr ++ r.tr, r.out⟩

instance : Monad M where
  pure := M.pure
  bind := M.bind

def emit (e : Event) : M Unit := fun fs => ⟨fs, [e], .ok ()⟩

def throwErr {α : Type} (e : Err) : M α := fun fs => ⟨fs, [], .error e⟩

def modifyFS (f : FS → FS) : M Unit := fun fs => ⟨f fs, [], .ok ()⟩

def mExists (p : String) : M Bool := fun fs => ⟨fs, [], .ok (fsExists fs p)⟩

def mRmtree (p : String) : M Unit := modifyFS (fsRmtree · p)

/-- `mkdir` with `exist_ok=True` (or `parents=True` on a fresh path). -/
def mMkdirp (p : String) : M Unit := modifyFS (fsAdd · p)

/-- Plain `Path.mkdir()`: raises when the directory already exists. -/
def mMkdir (p : String) : M Unit := fun fs =>
  if fsExists fs p then ⟨fs, [], .error (.fileExistsError p)⟩ else ⟨fsAdd fs p, [], .ok ()⟩

def mCopy2 (_src dst : String) : M Unit := modifyFS (fsAdd · dst)

def mCopyTree (src dst : String) : M Unit := modifyFS (fsCopyTree · src dst)

/-- `try/except subprocess.CalledProcessError`. -/
def tryCatchCPE {α : Type} (x : M α) (h : Err → M α) : M α := fun fs =>
  match x fs with
  | ⟨fs', tr, .error (.calledProcessError a)⟩ =>
    let r := h (.calledProcessError a) fs'
    ⟨r.fs, tr ++ r.tr, r.out⟩
  | r => r

/-- `try/except Exception`. -/
def tryCatchAll {α : Type} (x : M α) (h : Err → M α) : M α := fun fs =>
  match x fs with
  | ⟨fs', tr, .error e⟩ =>
    let r := h e fs'
    ⟨r.fs, tr ++ r.tr, r.out⟩
  | r => r

/-- `try/finally` (the cleanup here never raises). -/
def tryFinallyM {α : Type} (x : M α) (fin : M Unit) : M α := fun fs =>
  let r := x fs
  let rf := fin r.fs
  ⟨rf.fs, r.tr ++ rf.tr, r.out⟩

/-! ## The script -/

def project_root : String := "/project"

def idevice_ffi_dir : String := project_root ++ "/ffi"

def build_dir : String := project_root ++ "/build/idevice_ffi"

def xcframework_dir : String := project_root ++ "/xcframework"

def idevice_xcframework_path : String := xcframework_dir ++ "/idevice_ffi.xcframework"

/-- `run_command`: logs the invocation, records the external command, and
either returns its captured output or logs the failure and re-raises
`CalledProcessError`.  The `World` decides the outcome. -/
def run_command (w : World) (argv : List String) : M (String × String) := do
  emit (.log "Running command")
  emit (.cmd argv)
  if w.cmdOk argv then
    pure (w.cmdStdout argv, w.cmdStderr argv)
  else do
    emit (.log "Command failed")
    emit (.log ("stdout: " ++ w.cmdStdout argv))
    emit (.log ("stderr: " ++ w.cmdStderr argv))
    throwErr (.calledProcessError argv)

/-- The seven stable targets `prepare_build_environment` installs. -/
def rustupEnvTargets : List String :=
  ["aarch64-apple-ios", "aarch64-apple-ios-sim", "x86_64-apple-ios",
   "aarch64-apple-darwin", "x86_64-apple-darwin",
   "aarch64-apple-ios-macabi", "x86_64-apple-ios-macabi"]

/-- The per-target loop of `prepare_build_environment`: each `rustup
target add` is wrapped in its own `try/except CalledProcessError`. -/
def addTargetsLoop (w : World) : List String → M Unit
  | [] => pure ()
  | t :: rest => do
    tryCatchCPE (do let _ ← run_command w ["rustup", "target", "add", t]; pure ())
      (fun _ => emit (.log ("Target " ++ t ++ " might already be installed or not required on this toolchain")))
    addTargetsLoop w rest

/-- The installation half of `prepare_build_environment`: best-effort
install of the `rust-src` component for nightly (its failure caught per
`except CalledProcessError`), then the seven stable targets (the whole
loop additionally guarded by an `except Exception`).  (The clean
subprocess environment dict the Python builds for `rustup` has no
observable effect here and is modelled only in `build_env`.) -/
def install_rust_components (w : World) : M Unit := do
  tryCatchCPE
    (do let _ ← run_command w ["rustup", "component", "add", "rust-src", "--toolchain", "nightly"]
        pure ())
    (fun _ => emit (.log "rust-src component might already be installed"))
  tryCatchAll (addTargetsLoop w rustupEnvTargets)
    (fun _ => emit (.log "Warning: failed to ensure some targets"))
  emit (.log "Using nightly Rust with -Zbuild-std for tvOS targets (Tier 3)")

/-- The cleanup-then-install tail of `prepare_build_environment` (after
the ffi-directory check): clean previous builds and any previous
`idevice_ffi.xcframework`, then best-effort install the toolchain
pieces. -/
def prepare_cleanup_and_install (w : World) : M Unit := do
  let bEx ← mExists build_dir
  if bEx then mRmtree build_dir
  mMkdirp xcframework_dir
  let xEx ← mExists idevice_xcframework_path
  if xEx then mRmtree idevice_xcframework_path
  mMkdirp build_dir
  install_rust_components w

/-- `prepare_build_environment`: verify the ffi directory, then clean
and install. -/
def prepare_build_environment (w : World) : M Unit := do
  let ffiEx ← mExists idevice_ffi_dir
  if !ffiEx then
    throwErr (.fileNotFoundError ("idevice ffi directory not found at: " ++ idevice_ffi_dir))
  prepare_cleanup_and_install w

/-- The clean environment dict built for a cross-compilation subprocess
(`os.environ` reads collapsed to their resolved values in the `World`). -/
def base_env (w : World) : List (String × String) :=
  [("PATH", w.home ++ "/.cargo/bin:/usr/bin:/bin:/usr/sbin:/sbin:/opt/homebrew/bin:/usr/local/bin"),
   ("HOME", w.home), ("USER", w.user), ("SHELL", w.shell), ("TERM", w.term),
   ("LANG", w.lang), ("LC_ALL", w.lcAll)]

/-- The deployment-target variables `build_for_target` adds to the
environment, selected by platform. -/
def deployment_env (platform : String) (platform_config : PlatformConfig) : List (String × String) :=
  if platform ∈ ["iphoneos", "iphonesimulator"] then
    [("IPHONEOS_DEPLOYMENT_TARGET", platform_config.min_version)]
  else if platform ∈ ["appletvos", "appletvsimulator"] then
    [("TVOS_DEPLOYMENT_TARGET", platform_config.min_version)]
  else if platform ∈ ["macosx"] then
    [("MACOSX_DEPLOYMENT_TARGET", platform_config.min_version)]
  else if platform ∈ ["maccatalyst"] then
    [("MACOSX_DEPLOYMENT_TARGET", platform_config.min_version),
     ("IPHONEOS_DEPLOYMENT_TARGET", platform_config.min_version)]
  else []

/-- The full subprocess environment of one per-target build. -/
def build_env (w : World) (platform : String) (platform_config : PlatformConfig) : List (String × String) :=
  base_env w ++ deployment_env platform platform_config

/-- The cargo invocation for one target: the nightly `-Zbuild-std` form
when `'apple-tvos' in rust_target` (Tier 3), the stable form otherwise. -/
def cargo_cmd_for (rust_target : String) : List String :=
  if strContains rust_target "apple-tvos" then
    ["cargo", "+nightly", "build", "-Zbuild-std=std,panic_abort", "--release",
     "--target", rust_target, "--features", "full,ring", "--no-default-features"]
  else
    ["cargo", "build", "--release", "--target", rust_target, "--features", "full,ring",
     "--no-default-features"]

/-- The deterministic output path of a successful build:
`<crate-root>/../target/<triple>/release/libidevice_ffi.a`. -/
def target_lib_path (rust_target : String) : String :=
  project_root ++ "/target/" ++ rust_target ++ "/release/libidevice_ffi.a"

/-- `build_for_target`: build one (platform, rust target, arch) tuple and
copy the produced library (and the header, when present) into a
per-target scratch directory, returning that directory.  A successful
cargo invocation materialises its library at the deterministic target
path exactly when the `World` says so. -/
def build_for_target (w : World) (platform rust_target arch : String) : M String := do
  let platform_config := platformConfig platform
  let build_subdir := build_dir ++ "/" ++ platform ++ "-" ++ arch
  mMkdirp build_subdir
  let _env := build_env w platform platform_config
  emit (.log ("=== Building for " ++ platform ++ " (" ++ arch ++ ") using target " ++ rust_target ++ " ==="))
  let _ ← run_command w (cargo_cmd_for rust_target)
  if w.builtLibExists rust_target then modifyFS (fsAdd · (target_lib_path rust_target))
  let libEx ← mExists (target_lib_path rust_target)
  if !libEx then
    throwErr (.fileNotFoundError ("Built library not found at: " ++ target_lib_path rust_target))
  mCopy2 (target_lib_path rust_target) (build_subdir ++ "/libidevice_ffi.a")
  let hEx ← mExists (idevice_ffi_dir ++ "/idevice.h")
  if hEx then do
    mMkdirp (build_subdir ++ "/include")
    mCopy2 (idevice_ffi_dir ++ "/idevice.h") (build_subdir ++ "/include/idevice.h")
  else
    emit (.log ("Warning: Header file not found at " ++ idevice_ffi_dir ++ "/idevice.h"))
  pure build_subdir

/-- `create_fat_library`: one build path is returned unchanged; several
are merged by a single `lipo -create` invocation into a fresh fat
directory (whose headers are copied from the first build).  (With an
empty list the Python indexing `build_paths[0]` would raise; the script
never passes an empty list and the model totalises it with `headD`.) -/
def create_fat_library (w : World) (platform : String) (build_paths : List String) : M String := do
  if build_paths.length == 1 then
    pure (build_paths.headD "")
  else do
    let fat_dir := build_dir ++ "/" ++ platform ++ "-fat"
    mMkdirp fat_dir
    let first_build := build_paths.headD ""
    let incEx ← mExists (first_build ++ "/include")
    if incEx then mCopyTree (first_build ++ "/include") (fat_dir ++ "/include")
    let lib_paths := build_paths.map (fun p => p ++ "/libidevice_ffi.a")
    let fat_lib := fat_dir ++ "/libidevice_ffi.a"
    let _ ← run_command w (["lipo", "-create"] ++ lib_paths ++ ["-output", fat_lib])
    modifyFS (fsAdd · fat_lib)
    emit (.log ("Created fat library: " ++ fat_lib))
    pure fat_dir

/-- The `for i, rust_target in enumerate(...)` loop of `build_platform`. -/
def buildTargetsLoop (w : World) (platform : String) : List (String × String) → M (List String)
  | [] => pure []
  | (rust_target, arch) :: rest => do
    let bp ← build_for_target w platform rust_target arch
    let rest' ← buildTargetsLoop w platform rest
    pure (bp :: rest')

/-- `build_platform`: multi-architecture platforms build every target and
combine; single-architecture platforms build their one target. -/
def build_platform (w : World) (platform : String) : M String := do
  let platform_config := platformConfig platform
  match platform_config.rust_targets with
  | some rust_targets => do
    let build_paths ← buildTargetsLoop w platform (rust_targets.zip (platform_config.archs.getD []))
    create_fat_library w platform build_paths
  | none =>
    build_for_target w platform (platform_config.rust_target.getD "") (platform_config.arch.getD "")

/-- The parsing of `lipo -info` output done by `get_lib_archs`
(`stdout.strip() or stderr.strip()`, then the `are:`/`architecture:`
branches). -/
def parse_lipo_output (stdout stderr : String) : List String :=
  let output := if pyStrip stdout != "" then pyStrip stdout else pyStrip stderr
  if strContains output "are:" then pySplitWs (pyStrip (afterLastSplit output "are:"))
  else if strContains output "architecture:" then [pyStrip (afterLastSplit output "architecture:")]
  else []

/-- `get_lib_archs`: architectures reported by `lipo -info` on a library;
any exception yields `[]`. -/
def get_lib_archs (w : World) (lib_path : String) : M (List String) :=
  tryCatchAll
    (do let result ← run_command w ["lipo", "-info", lib_path]
        pure (parse_lipo_output result.1 result.2))
    (fun _ => pure [])

/-- The value `get_lib_archs` returns, as a pure function of the world. -/
def lipo_detected (w : World) (lib_path : String) : List String :=
  if w.cmdOk ["lipo", "-info", lib_path] then
    parse_lipo_output (w.cmdStdout ["lipo", "-info", lib_path]) (w.cmdStderr ["lipo", "-info", lib_path])
  else []

/-- The library-identifier table of `create_xcframework`, as a function
of the platform key and the sorted architecture list. -/
def derive_library_identifier (platform : String) (sorted_archs : List String) : String :=
  if platform == "appletvos" then "tvos-arm64"
  else if platform == "appletvsimulator" then
    if sorted_archs == ["arm64", "x86_64"] then "tvos-arm64_x86_64-simulator"
    else if sorted_archs == ["arm64"] then "tvos-arm64-simulator"
    else if sorted_archs == ["x86_64"] then "tvos-x86_64-simulator"
    else "tvos-simulator"
  else if platform == "iphoneos" then "ios-arm64"
  else if platform == "iphonesimulator" then
    if sorted_archs == ["arm64", "x86_64"] then "ios-arm64_x86_64-simulator"
    else if sorted_archs == ["arm64"] then "ios-arm64-simulator"
    else if sorted_archs == ["x86_64"] then "ios-x86_64-simulator"
    else "ios-simulator"
  else if platform == "macosx" then
    if sorted_archs == ["arm64", "x86_64"] then "macos-arm64_x86_64"
    else if sorted_archs == ["arm64"] then "macos-arm64"
    else if sorted_archs == ["x86_64"] then "macos-x86_64"
    else "macos"
  else if platform == "maccatalyst" then
    if sorted_archs == ["arm64", "x86_64"] then "ios-arm64_x86_64-maccatalyst"
    else if sorted_archs == ["arm64"] then "ios-arm64-maccatalyst"
    else if sorted_archs == ["x86_64"] then "ios-x86_64-maccatalyst"
    else "ios-maccatalyst"
  else ""

/-- `sorted(self.get_lib_archs(lib_path) or platform_config.get('archs', []))`. -/
def detected_sorted (w : World) (platform lib_path : String) : M (List String) := do
  let detected ← get_lib_archs w lib_path
  let archs := if detected.isEmpty then (platformConfig platform).archs.getD [] else detected
  pure (sortStr archs)

/-- The tail of the `create_xcframework` loop body: materialise the
identifier directory, copy the library and headers into it, and build
the manifest entry. -/
def finish_entry (xcframework_path lib_path headers_path : String)
    (library_identifier supported_platform : String)
    (supported_architectures : List String) (platform_variant : Option String) :
    M (Option LibraryEntry) := do
  let platform_dir := xcframework_path ++ "/" ++ library_identifier
  mMkdir platform_dir
  mCopy2 lib_path (platform_dir ++ "/libidevice_ffi.a")
  let hEx ← mExists headers_path
  if hEx then mCopyTree headers_path (platform_dir ++ "/Headers")
  pure (some
    { binaryPath := "libidevice_ffi.a", headersPath := "Headers",
      libraryIdentifier := library_identifier, libraryPath := "libidevice_ffi.a",
      supportedArchitectures := supported_architectures,
      supportedPlatform := supported_platform,
      supportedPlatformVariant := platform_variant })

/-- One iteration of the `create_xcframework` loop: skip when the built
library file is missing, otherwise branch on the platform key exactly as
the `if/elif` chain does (`appletvos` and `iphoneos` use fixed identifier
and architectures; the four multi-architecture platforms consult
`get_lib_archs` and fall back to the static `archs`). -/
def xc_entry (w : World) (xcframework_path platform build_path : String) : M (Option LibraryEntry) := do
  let lib_path := build_path ++ "/libidevice_ffi.a"
  let headers_path := build_path ++ "/include"
  let libEx ← mExists lib_path
  if !libEx then pure none
  else if platform == "appletvos" then
    finish_entry xcframework_path lib_path headers_path "tvos-arm64" "tvos" ["arm64"] none
  else if platform == "appletvsimulator" then do
    let sorted_archs ← detected_sorted w platform lib_path
    finish_entry xcframework_path lib_path headers_path
      (derive_library_identifier platform sorted_archs) "tvos" sorted_archs (some "simulator")
  else if platform == "iphoneos" then
    finish_entry xcframework_path lib_path headers_path "ios-arm64" "ios" ["arm64"] none
  else if platform == "iphonesimulator" then do
    let sorted_archs ← detected_sorted w platform lib_path
    finish_entry xcframework_path lib_path headers_path
      (derive_library_identifier platform sorted_archs) "ios" sorted_archs (some "simulator")
  else if platform == "macosx" then do
    let sorted_archs ← detected_sorted w platform lib_path
    finish_entry xcframework_path lib_path headers_path
      (derive_library_identifier platform sorted_archs) "macos" sorted_archs none
  else if platform == "maccatalyst" then do
    let sorted_archs ← detected_sorted w platform lib_path
    finish_entry xcframework_path lib_path headers_path
      (derive_library_identifier platform sorted_archs) "ios" sorted_archs (some "maccatalyst")
  else
    pure none

/-- The `for platform, build_path in platform_builds.items()` loop,
collecting the `available_libraries` list in iteration order. -/
def xc_loop (w : World) (xcframework_path : String) :
    List (String × String) → M (List LibraryEntry)
  | [] => pure []
  | (platform, build_path) :: rest => do
    let entry ← xc_entry w xcframework_path platform build_path
    let rest' ← xc_loop w xcframework_path rest
    match entry with
    | none => pure rest'
    | some e => pure (e :: rest')

/-- `create_xcframework`: delete any existing bundle, recreate it, lay
out one subdirectory per manifest entry, and write the Info.plist. -/
def create_xcframework (w : World) (platform_builds : List (String × String)) : M String := do
  let ex ← mExists idevice_xcframework_path
  if ex then mRmtree idevice_xcframework_path
  mMkdirp idevice_xcframework_path
  emit (.log "=== Creating XCFramework manually ===")
  let available_libraries ← xc_loop w idevice_xcframework_path platform_builds
  mCopy2 "" (idevice_xcframework_path ++ "/Info.plist")
  emit (.writePlist (idevice_xcframework_path ++ "/Info.plist")
    { availableLibraries := available_libraries, cfBundlePackageType := "XFWK",
      xcFrameworkFormatVersion := "1.0" })
  emit (.log "XCFramework created successfully")
  pure idevice_xcframework_path

/-- The `for platform in self.platforms.keys()` loop of
`build_all_platforms`, collecting `platform_builds` in table order. -/
def buildAllLoop (w : World) : List (String × PlatformConfig) → M (List (String × String))
  | [] => pure []
  | (platform, platform_config) :: rest => do
    emit (.log ("Building for " ++ platform_config.platform_name ++ " (" ++ platform ++ ")"))
    let build_path ← build_platform w platform
    let rest' ← buildAllLoop w rest
    pure ((platform, build_path) :: rest')

/-- `build_all_platforms`: build all six platforms sequentially, then
assemble the bundle. -/
def build_all_platforms (w : World) : M String := do
  let platform_builds ← buildAllLoop w platforms
  create_xcframework w platform_builds

/-- The identity mapping from SDK names to platform keys. -/
def platform_map : List (String × String) :=
  [("iphoneos", "iphoneos"), ("iphonesimulator", "iphonesimulator"),
   ("appletvos", "appletvos"), ("appletvsimulator", "appletvsimulator"),
   ("macosx", "macosx"), ("maccatalyst", "maccatalyst")]

/-- `build_active_platform`: build the one requested SDK and assemble a
single-platform bundle. -/
def build_active_platform (w : World) (sdk_name : String) : M String := do
  match platform_map.lookup (strLower sdk_name) with
  | none => throwErr (.valueError ("Unsupported SDK: " ++ sdk_name))
  | some platform => do
    emit (.log ("Building for active platform: " ++ (platformConfig platform).platform_name))
    let build_path ← build_platform w platform
    create_xcframework w [(platform, build_path)]

/-- The guarded body of `main`: prepare, then build the requested scope. -/
def mainBody (w : World) (sdk : Option String) : M Nat := do
  emit (.log "Preparing build environment...")
  prepare_build_environment w
  match sdk with
  | some s => do let _ ← build_active_platform w s; pure 0
  | none => do let _ ← build_all_platforms w; pure 0

/-- `main`: run the body; any exception is caught, logged, and turned
into exit status 1, otherwise 0. -/
def mainRun (w : World) (sdk : Option String) : M Nat :=
  tryCatchAll (mainBody w sdk) (fun _ => do emit (.log "Build failed"); pure 1)

/-- The `vtool` invocation rewriting one object file in place to
platform code 3 (tvOS) with minimum and SDK version 12.0. -/
def vtool_cmd (obj_path : String) : List String :=
  ["vtool", "-set-build-version", "3", "12.0", "12.0", "-replace", obj_path]

/-- The per-member loop of `fix_tvos_platform_metadata`: each `vtool`
call is wrapped in its own `try/except CalledProcessError`; a failing
member keeps its original metadata (the `continue`). -/
def vtoolLoop (w : World) (temp_dir : String) : List ObjMember → M (List ObjMember)
  | [] => pure []
  | obj :: rest => do
    let obj' ← tryCatchCPE
      (do let _ ← run_command w (vtool_cmd (temp_dir ++ "/" ++ obj.name))
          emit (.log ("Successfully updated platform metadata for " ++ obj.name))
          pure { obj with platform := 3, minos := "12.0", sdk := "12.0" })
      (fun _ => do
        emit (.log ("vtool failed for " ++ obj.name))
        pure obj)
    let rest' ← vtoolLoop w temp_dir rest
    pure (obj' :: rest')

/-- `fix_tvos_platform_metadata`: extract the archive into a scratch
directory, rewrite each `*.o` member with `vtool`, recreate the archive
at `lib_path` from those members (`ar rcs`), and clean up.  The returned
list models the member content of the recreated archive. -/
def fix_tvos_platform_metadata (w : World) (lib_path platform : String) : M (List ObjMember) := do
  emit (.log ("Fixing platform metadata for " ++ platform ++ "..."))
  let temp_dir := parentDir lib_path ++ "/temp_objects"
  let tEx ← mExists temp_dir
  if tEx then mRmtree temp_dir
  mMkdir temp_dir
  tryFinallyM
    (do let _ ← run_command w ["ar", "x", lib_path]
        let object_files := (w.arMembers lib_path).filter (fun m => strEndsWith m.name ".o")
        let updated ← vtoolLoop w temp_dir object_files
        let _ ← run_command w
          (["ar", "rcs", lib_path] ++ object_files.map (fun m => temp_dir ++ "/" ++ m.name))
        pure updated)
    (do let tEx2 ← mExists temp_dir
        if tEx2 then mRmtree temp_dir else pure ())

/-! ## Concrete worlds used by witnesses and counterexamples -/

/-- A world where every external command succeeds, commands print
nothing, cargo always leaves its library at the expected path, and
archives are empty. -/
def wAllOk : World :=
  { cmdOk := fun _ => true, cmdStdout := fun _ => "", cmdStderr := fun _ => "",
    builtLibExists := fun _ => true, arMembers := fun _ => [] }

/-- The initial filesystem of a healthy checkout: the ffi crate directory
and its header file exist. -/
def initFS : FS := [idevice_ffi_dir, idevice_ffi_dir ++ "/idevice.h"]

def isVtoolCmd (e : Event) : Bool :=
  match e with
  | .cmd argv => argv.head? == some "vtool"
  | _ => false

def isPlistWrite (e : Event) : Bool :=
  match e with
  | .writePlist _ _ => true
  | _ => false

/-! ## Reasoning kit: trace and failure properties of `M` programs -/

/-- Every event of every trace of `x` satisfies `p`. -/
def TraceAll (p : Event → Bool) {α : Type} (x : M α) : Prop :=
  ∀ fs, ((x fs).tr.all p) = true

/-- `x` raises on every filesystem. -/
def AlwaysFails {α : Type} (x : M α) : Prop :=
  ∀ fs, ∃ e, (x fs).out = .error e

/-- The event `e` occurs in every trace of `x`. -/
def TraceHas (e : Event) {α : Type} (x : M α) : Prop :=
  ∀ fs, e ∈ (x fs).tr

/-- `x` succeeds on every filesystem. -/
def NeverFails {α : Type} (x : M α) : Prop :=
  ∀ fs, ∃ a, (x fs).out = .ok a

/-- Every failure of `x` is a `CalledProcessError`. -/
def FailsOnlyCPE {α : Type} (x : M α) : Prop :=
  ∀ fs e, (x fs).out = .error e → ∃ argv, e = .calledProcessError argv

theorem bind_is_M_bind {α β : Type} (x : M α) (f : α → M β) : (x >>= f) = M.bind x f := rfl

theorem pure_is_M_pure {α : Type} (a : α) : (Pure.pure a : M α) = M.pure a := rfl

theorem traceAll_M_pure {p : Event → Bool} {α : Type} (a : α) : TraceAll p (M.pure a) := by
  intro fs; simp [M.pure]

theorem traceAll_pure {p : Event → Bool} {α : Type} (a : α) : TraceAll p (Pure.pure a : M α) :=
  traceAll_M_pure a

theorem traceAll_bind {p : Event → Bool} {α β : Type} {x : M α} {f : α → M β}
    (hx : TraceAll p x) (hf : ∀ a, TraceAll p (f a)) : TraceAll p (x >>= f) := by
  intro fs
  show (((M.bind x f) fs).tr.all p) = true
  unfold M.bind
  rcases hr : x fs with ⟨fs', tr, out⟩
  have hx' := hx fs
  rw [hr] at hx'
  cases out with
  | error e => simpa using hx'
  | ok a =>
    have hf' := hf a fs'
    simp only [List.all_append]
    simp only at hx'
    simp [hx', hf']

theorem traceAll_bind_fails {p : Event → Bool} {α β : Type} {x : M α} {f : α → M β}
    (hx : AlwaysFails x) (ht : TraceAll p x) : TraceAll p (x >>= f) := by
  intro fs
  show (((M.bind x f) fs).tr.all p) = true
  unfold M.bind
  rcases hr : x fs with ⟨fs', tr, out⟩
  have ht' := ht fs
  rw [hr] at ht'
  rcases hx fs with ⟨e, he⟩
  rw [hr] at he
  simp only at he
  cases out with
  | error e' => simpa using ht'
  | ok a => exact absurd he (by simp)

theorem traceAll_emit {p : Event → Bool} {e : Event} (h : p e = true) : TraceAll p (emit e) := by
  intro fs; simp [emit, h]

theorem traceAll_throwErr {p : Event → Bool} {α : Type} (e : Err) :
    TraceAll p (throwErr e : M α) := by
  intro fs; simp [throwErr]

theorem traceAll_modifyFS {p : Event → Bool} (f : FS → FS) : TraceAll p (modifyFS f) := by
  intro fs; simp [modifyFS]

theorem traceAll_mExists {p : Event → Bool} (q : String) : TraceAll p (mExists q) := by
  intro fs; simp [mExists]

theorem traceAll_mRmtree {p : Event → Bool} (q : String) : TraceAll p (mRmtree q) :=
  traceAll_modifyFS _

theorem traceAll_mMkdirp {p : Event → Bool} (q : String) : TraceAll p (mMkdirp q) :=
  traceAll_modifyFS _

theorem traceAll_mMkdir {p : Event → Bool} (q : String) : TraceAll p (mMkdir q) := by
  intro fs; unfold mMkdir; split <;> simp

theorem traceAll_mCopy2 {p : Event → Bool} (s d : String) : TraceAll p (mCopy2 s d) :=
  traceAll_modifyFS _

theorem traceAll_mCopyTree {p : Event → Bool} (s d : String) : TraceAll p (mCopyTree s d) :=
  traceAll_modifyFS _

theorem traceAll_ite {p : Event → Bool} {α : Type} {c : Prop} [Decidable c] {x y : M α}
    (hx : TraceAll p x) (hy : TraceAll p y) : TraceAll p (if c then x else y) := by
  split
  · exact hx
  · exact hy

theorem traceAll_run_command {p : Event → Bool} {w : World} {argv : List String}
    (hc : p (.cmd argv) = true) (hl : ∀ s, p (.log s) = true) :
    TraceAll p (run_command w argv) := by
  intro fs
  unfold run_command
  cases h : w.cmdOk argv <;>
    simp [bind_is_M_bind, M.bind, emit, M.pure, pure_is_M_pure, throwErr, h, hc, hl]

theorem traceAll_tryCatchCPE {p : Event → Bool} {α : Type} {x : M α} {h : Err → M α}
    (hx : TraceAll p x) (hh : ∀ e, TraceAll p (h e)) : TraceAll p (tryCatchCPE x h) := by
  intro fs
  unfold tryCatchCPE
  rcases hr : x fs with ⟨fs', tr, out⟩
  have hx' := hx fs
  rw [hr] at hx'
  simp only at hx'
  match out with
  | .error (.calledProcessError a) =>
    have hh' := hh (.calledProcessError a) fs'
    simp [List.all_append, hx', hh']
  | .error (.fileNotFoundError m) => simpa using hx'
  | .error (.fileExistsError m) => simpa using hx'
  | .error (.valueError m) => simpa using hx'
  | .ok a => simpa using hx'

theorem traceAll_tryCatchAll {p : Event → Bool} {α : Type} {x : M α} {h : Err → M α}
    (hx : TraceAll p x) (hh : ∀ e, TraceAll p (h e)) : TraceAll p (tryCatchAll x h) := by
  intro fs
  unfold tryCatchAll
  rcases hr : x fs with ⟨fs', tr, out⟩
  have hx' := hx fs
  rw [hr] at hx'
  simp only at hx'
  match out with
  | .error e =>
    have hh' := hh e fs'
    simp [List.all_append, hx', hh']
  | .ok a => simpa using hx'

theorem traceAll_tryFinallyM {p : Event → Bool} {α : Type} {x : M α} {fin : M Unit}
    (hx : TraceAll p x) (hf : TraceAll p fin) : TraceAll p (tryFinallyM x fin) := by
  intro fs
  unfold tryFinallyM
  have hx' := hx fs
  have hf' := hf ((x fs).fs)
  simp [List.all_append, hx', hf']

theorem alwaysFails_bind_univ {α β : Type} {x : M α} {f : α → M β}
    (hf : ∀ a, AlwaysFails (f a)) : AlwaysFails (x >>= f) := by
  intro fs
  show ∃ e, ((M.bind x f) fs).out = .error e
  unfold M.bind
  rcases hr : x fs with ⟨fs', tr, out⟩
  cases out with
  | error e => exact ⟨e, rfl⟩
  | ok a => rcases hf a fs' with ⟨e, he⟩; exact ⟨e, by simpa using he⟩

theorem alwaysFails_bind_left {α β : Type} {x : M α} {f : α → M β}
    (hx : AlwaysFails x) : AlwaysFails (x >>= f) := by
  intro fs
  show ∃ e, ((M.bind x f) fs).out = .error e
  unfold M.bind
  rcases hr : x fs with ⟨fs', tr, out⟩
  rcases hx fs with ⟨e, he⟩
  rw [hr] at he
  simp only at he
  cases out with
  | error e' => exact ⟨e', rfl⟩
  | ok a => exact absurd he (by simp)

theorem alwaysFails_run_command {w : World} {argv : List String}
    (h : w.cmdOk argv = false) : AlwaysFails (run_command w argv) := by
  intro fs
  unfold run_command
  simp [bind_is_M_bind, M.bind, emit, M.pure, pure_is_M_pure, throwErr, h]

theorem neverFails_M_pure {α : Type} (a : α) : NeverFails (M.pure a) := by
  intro fs; exact ⟨a, rfl⟩

theorem neverFails_pure {α : Type} (a : α) : NeverFails (Pure.pure a : M α) :=
  neverFails_M_pure a

theorem neverFails_bind {α β : Type} {x : M α} {f : α → M β}
    (hx : NeverFails x) (hf : ∀ a, NeverFails (f a)) : NeverFails (x >>= f) := by
  intro fs
  show ∃ b, ((M.bind x f) fs).out = .ok b
  unfold M.bind
  rcases hr : x fs with ⟨fs', tr, out⟩
  rcases hx fs with ⟨a, ha⟩
  rw [hr] at ha
  simp only at ha
  cases out with
  | error e => exact absurd ha (by simp)
  | ok a' =>
    rcases hf a' fs' with ⟨b, hb⟩
    exact ⟨b, by simpa using hb⟩

theorem neverFails_emit (e : Event) : NeverFails (emit e) := by
  intro fs; exact ⟨(), rfl⟩

theorem neverFails_modifyFS (f : FS → FS) : NeverFails (modifyFS f) := by
  intro fs; exact ⟨(), rfl⟩

theorem neverFails_mExists (q : String) : NeverFails (mExists q) := by
  intro fs; exact ⟨_, rfl⟩

theorem neverFails_ite {α : Type} {c : Prop} [Decidable c] {x y : M α}
    (hx : NeverFails x) (hy : NeverFails y) : NeverFails (if c then x else y) := by
  split
  · exact hx
  · exact hy

theorem failsOnlyCPE_run_command (w : World) (argv : List String) :
    FailsOnlyCPE (run_command w argv) := by
  intro fs e
  unfold run_command
  cases h : w.cmdOk argv <;>
    simp [bind_is_M_bind, M.bind, emit, M.pure, pure_is_M_pure, throwErr, h]
  intro he
  exact ⟨argv, he.symm⟩

theorem failsOnlyCPE_bind_pure {α β : Type} {x : M α} (f : α → β)
    (hx : FailsOnlyCPE x) : FailsOnlyCPE (x >>= fun a => (Pure.pure (f a) : M β)) := by
  intro fs e
  show ((M.bind x _) fs).out = .error e → _
  unfold M.bind
  rcases hr : x fs with ⟨fs', tr, out⟩
  cases out with
  | error e' =>
    intro he
    simp only at he
    cases he
    exact hx fs e (by rw [hr])
  | ok a => simp [M.pure, pure_is_M_pure]

theorem neverFails_tryCatchCPE {α : Type} {x : M α} {h : Err → M α}
    (hx : FailsOnlyCPE x) (hh : ∀ e, NeverFails (h e)) : NeverFails (tryCatchCPE x h) := by
  intro fs
  unfold tryCatchCPE
  rcases hr : x fs with ⟨fs', tr, out⟩
  match hout : out with
  | .error (.calledProcessError a) =>
    rcases hh (.calledProcessError a) fs' with ⟨b, hb⟩
    exact ⟨b, by simpa using hb⟩
  | .error (.fileNotFoundError m) =>
    rcases hx fs _ (by rw [hr]) with ⟨argv, harg⟩
    exact absurd harg (by simp)
  | .error (.fileExistsError m) =>
    rcases hx fs _ (by rw [hr]) with ⟨argv, harg⟩
    exact absurd harg (by simp)
  | .error (.valueError m) =>
    rcases hx fs _ (by rw [hr]) with ⟨argv, harg⟩
    exact absurd harg (by simp)
  | .ok a => exact ⟨a, rfl⟩

theorem neverFails_tryCatchAll {α : Type} {x : M α} {h : Err → M α}
    (hh : ∀ e, NeverFails (h e)) : NeverFails (tryCatchAll x h) := by
  intro fs
  unfold tryCatchAll
  rcases hr : x fs with ⟨fs', tr, out⟩
  match out with
  | .error e =>
    rcases hh e fs' with ⟨b, hb⟩
    exact ⟨b, by simpa using hb⟩
  | .ok a => exact ⟨a, rfl⟩

theorem traceHas_bind_left {e : Event} {α β : Type} {x : M α} {f : α → M β}
    (hx : TraceHas e x) : TraceHas e (x >>= f) := by
  intro fs
  show e ∈ ((M.bind x f) fs).tr
  unfold M.bind
  rcases hr : x fs with ⟨fs', tr, out⟩
  have hx' := hx fs
  rw [hr] at hx'
  simp only at hx'
  cases out with
  | error e' => simpa using hx'
  | ok a => simp [hx']

theorem traceHas_bind_right {e : Event} {α β : Type} {x : M α} {f : α → M β}
    (hx : NeverFails x) (hf : ∀ a, TraceHas e (f a)) : TraceHas e (x >>= f) := by
  intro fs
  show e ∈ ((M.bind x f) fs).tr
  unfold M.bind
  rcases hr : x fs with ⟨fs', tr, out⟩
  rcases hx fs with ⟨a, ha⟩
  rw [hr] at ha
  simp only at ha
  cases out with
  | error e' => exact absurd ha (by simp)
  | ok a' => simp [hf a' fs']

theorem traceHas_run_command (w : World) (argv : List String) :
    TraceHas (.cmd argv) (run_command w argv) := by
  intro fs
  unfold run_command
  cases h : w.cmdOk argv <;>
    simp [bind_is_M_bind, M.bind, emit, M.pure, pure_is_M_pure, throwErr, h]

theorem traceHas_tryCatchCPE {e : Event} {α : Type} {x : M α} {h : Err → M α}
    (hx : TraceHas e x) : TraceHas e (tryCatchCPE x h) := by
  intro fs
  unfold tryCatchCPE
  rcases hr : x fs with ⟨fs', tr, out⟩
  have hx' := hx fs
  rw [hr] at hx'
  simp only at hx'
  match out with
  | .error (.calledProcessError a) => simp [hx']
  | .error (.fileNotFoundError m) => simpa using hx'
  | .error (.fileExistsError m) => simpa using hx'
  | .error (.valueError m) => simpa using hx'
  | .ok a => simpa using hx'

theorem traceHas_tryCatchAll {e : Event} {α : Type} {x : M α} {h : Err → M α}
    (hx : TraceHas e x) : TraceHas e (tryCatchAll x h) := by
  intro fs
  unfold tryCatchAll
  rcases hr : x fs with ⟨fs', tr, out⟩
  have hx' := hx fs
  rw [hr] at hx'
  simp only at hx'
  match out with
  | .error e' => simp [hx']
  | .ok a => simpa using hx'

/-! ## Claims -/

/-- C3: Library-identifier derivation is a pure, deterministic function
of the pair (platform key, sorted architecture set): two calls with equal
inputs yield the same identifier string, and in particular platform
"iphonesimulator" with sorted architectures ["arm64","x86_64"] yields
"ios-arm64_x86_64-simulator" and with ["arm64"] alone yields
"ios-arm64-simulator". -/
theorem library_identifier_deterministic :
    (∀ p₁ p₂ a₁ a₂, p₁ = p₂ → a₁ = a₂ →
      derive_library_identifier p₁ a₁ = derive_library_identifier p₂ a₂) ∧
    derive_library_identifier "iphonesimulator" ["arm64", "x86_64"] = "ios-arm64_x86_64-simulator" ∧
    derive_library_identifier "iphonesimulator" ["arm64"] = "ios-arm64-simulator" := by
  refine ⟨?_, by decide, by decide⟩
  intro p₁ p₂ a₁ a₂ h1 h2
  rw [h1, h2]

/-- Witness for C3 at concrete inputs. -/
theorem library_identifier_deterministic_witness :
    derive_library_identifier "iphonesimulator" ["arm64"] =
      derive_library_identifier "iphonesimulator" ["arm64"] ∧
    derive_library_identifier "iphonesimulator" ["arm64", "x86_64"] = "ios-arm64_x86_64-simulator" :=
  ⟨library_identifier_deterministic.1 "iphonesimulator" "iphonesimulator" ["arm64"] ["arm64"] rfl rfl,
   library_identifier_deterministic.2.1⟩

def deployment_var_names : List String :=
  ["IPHONEOS_DEPLOYMENT_TARGET", "TVOS_DEPLOYMENT_TARGET", "MACOSX_DEPLOYMENT_TARGET"]

/-- The deployment-target variables among an environment's entries. -/
def deploymentVars (env : List (String × String)) : List (String × String) :=
  env.filter (fun kv => deployment_var_names.contains kv.1)

/-- C8: For every per-target build, exactly one deployment-target
environment variable family is set according to the platform:
IPHONEOS_DEPLOYMENT_TARGET for iphoneos/iphonesimulator,
TVOS_DEPLOYMENT_TARGET for appletvos/appletvsimulator,
MACOSX_DEPLOYMENT_TARGET for macosx, and for maccatalyst both
MACOSX_DEPLOYMENT_TARGET and IPHONEOS_DEPLOYMENT_TARGET simultaneously,
each to the platform's configured minimum version. -/
theorem deployment_target_env_selection (w : World) :
    deploymentVars (build_env w "iphoneos" (platformConfig "iphoneos")) =
      [("IPHONEOS_DEPLOYMENT_TARGET", "12.0")] ∧
    deploymentVars (build_env w "iphonesimulator" (platformConfig "iphonesimulator")) =
      [("IPHONEOS_DEPLOYMENT_TARGET", "12.0")] ∧
    deploymentVars (build_env w "appletvos" (platformConfig "appletvos")) =
      [("TVOS_DEPLOYMENT_TARGET", "12.0")] ∧
    deploymentVars (build_env w "appletvsimulator" (platformConfig "appletvsimulator")) =
      [("TVOS_DEPLOYMENT_TARGET", "12.0")] ∧
    deploymentVars (build_env w "macosx" (platformConfig "macosx")) =
      [("MACOSX_DEPLOYMENT_TARGET", "12.0")] ∧
    deploymentVars (build_env w "maccatalyst" (platformConfig "maccatalyst")) =
      [("MACOSX_DEPLOYMENT_TARGET", "13.1"), ("IPHONEOS_DEPLOYMENT_TARGET", "13.1")] := by
  refine ⟨rfl, rfl, rfl, rfl, rfl, rfl⟩

/-- C1 (divergence witness): in a successful full run (every external
command succeeds, the compiler always leaves its output, headers are
present), the appletvos compiler invocation happens and the bundle's
Info.plist is written, yet the trace contains no `vtool` invocation at
all: `fix_tvos_platform_metadata` is never called, so the tvOS library is
bundled with its original build-version metadata. -/
theorem full_run_never_invokes_fixer :
    (mainRun wAllOk none initFS).out = .ok 0 ∧
    (Event.cmd (cargo_cmd_for "aarch64-apple-tvos")) ∈ (mainRun wAllOk none initFS).tr ∧
    ((mainRun wAllOk none initFS).tr.countP isPlistWrite) = 1 ∧
    ((mainRun wAllOk none initFS).tr.countP isVtoolCmd) = 0 := by
  exact ⟨by decide, by decide, by decide, by decide⟩

/-! ## Applied evaluation lemmas (symbolic execution of `M` programs) -/

@[simp]
theorem run_bind {α β : Type} (x : M α) (f : α → M β) (fs : FS) :
    (x >>= f) fs =
      match (x fs).out with
      | .error e => ⟨(x fs).fs, (x fs).tr, .error e⟩
      | .ok a => ⟨(f a (x fs).fs).fs, (x fs).tr ++ (f a (x fs).fs).tr, (f a (x fs).fs).out⟩ := by
  show M.bind x f fs = _
  unfold M.bind
  rcases hr : x fs with ⟨fs', tr, out⟩
  cases out <;> simp

@[simp]
theorem run_pure {α : Type} (a : α) (fs : FS) : (Pure.pure a : M α) fs = ⟨fs, [], .ok a⟩ := rfl

@[simp]
theorem run_emit (e : Event) (fs : FS) : emit e fs = ⟨fs, [e], .ok ()⟩ := rfl

@[simp]
theorem run_throwErr {α : Type} (e : Err) (fs : FS) : (throwErr e : M α) fs = ⟨fs, [], .error e⟩ := rfl

@[simp]
theorem run_modifyFS (f : FS → FS) (fs : FS) : modifyFS f fs = ⟨f fs, [], .ok ()⟩ := rfl

@[simp]
theorem run_mExists (p : String) (fs : FS) : mExists p fs = ⟨fs, [], .ok (fsExists fs p)⟩ := rfl

@[simp]
theorem run_mRmtree (p : String) (fs : FS) : mRmtree p fs = ⟨fsRmtree fs p, [], .ok ()⟩ := rfl

@[simp]
theorem run_mMkdirp (p : String) (fs : FS) : mMkdirp p fs = ⟨fsAdd fs p, [], .ok ()⟩ := rfl

@[simp]
theorem run_mCopy2 (s d : String) (fs : FS) : mCopy2 s d fs = ⟨fsAdd fs d, [], .ok ()⟩ := rfl

@[simp]
theorem run_mCopyTree (s d : String) (fs : FS) : mCopyTree s d fs = ⟨fsCopyTree fs s d, [], .ok ()⟩ := rfl

@[simp]
theorem run_mMkdir (p : String) (fs : FS) :
    mMkdir p fs =
      if fsExists fs p then ⟨fs, [], .error (.fileExistsError p)⟩ else ⟨fsAdd fs p, [], .ok ()⟩ := rfl

@[simp]
theorem run_tryCatchCPE {α : Type} (x : M α) (h : Err → M α) (fs : FS) :
    tryCatchCPE x h fs =
      match (x fs).out with
      | .error (.calledProcessError a) =>
        ⟨(h (.calledProcessError a) (x fs).fs).fs,
          (x fs).tr ++ (h (.calledProcessError a) (x fs).fs).tr,
          (h (.calledProcessError a) (x fs).fs).out⟩
      | .error (.fileNotFoundError m) => ⟨(x fs).fs, (x fs).tr, .error (.fileNotFoundError m)⟩
      | .error (.fileExistsError m) => ⟨(x fs).fs, (x fs).tr, .error (.fileExistsError m)⟩
      | .error (.valueError m) => ⟨(x fs).fs, (x fs).tr, .error (.valueError m)⟩
      | .ok a => ⟨(x fs).fs, (x fs).tr, .ok a⟩ := by
  unfold tryCatchCPE
  rcases hr : x fs with ⟨fs', tr, out⟩
  match out with
  | .error (.calledProcessError a) => simp
  | .error (.fileNotFoundError m) => simp
  | .error (.fileExistsError m) => simp
  | .error (.valueError m) => simp
  | .ok a => simp

@[simp]
theorem run_tryCatchAll {α : Type} (x : M α) (h : Err → M α) (fs : FS) :
    tryCatchAll x h fs =
      match (x fs).out with
      | .error e => ⟨(h e (x fs).fs).fs, (x fs).tr ++ (h e (x fs).fs).tr, (h e (x fs).fs).out⟩
      | .ok a => ⟨(x fs).fs, (x fs).tr, .ok a⟩ := by
  unfold tryCatchAll
  rcases hr : x fs with ⟨fs', tr, out⟩
  match out with
  | .error e => simp
  | .ok a => simp

@[simp]
theorem run_tryFinallyM {α : Type} (x : M α) (fin : M Unit) (fs : FS) :
    tryFinallyM x fin fs =
      ⟨(fin (x fs).fs).fs, (x fs).tr ++ (fin (x fs).fs).tr, (x fs).out⟩ := rfl

@[simp]
theorem run_run_command (w : World) (argv : List String) (fs : FS) :
    run_command w argv fs =
      if w.cmdOk argv then
        ⟨fs, [.log "Running command", .cmd argv], .ok (w.cmdStdout argv, w.cmdStderr argv)⟩
      else
        ⟨fs, [.log "Running command", .cmd argv, .log "Command failed",
              .log ("stdout: " ++ w.cmdStdout argv), .log ("stderr: " ++ w.cmdStderr argv)],
          .error (.calledProcessError argv)⟩ := by
  unfold run_command
  cases h : w.cmdOk argv <;> simp [h]

def isLipoCmd (e : Event) : Bool :=
  match e with
  | .cmd argv => argv.head? == some "lipo"
  | _ => false

/-- C6: For every platform, the Fat-Library Combiner given a one-element
list of Build Outputs returns that Build Output unchanged — no events,
no filesystem change, no combining-tool invocation — and given two or
more Build Outputs it records exactly one lipo invocation, whose
argument list holds every member library path and one output path. -/
theorem fat_library_identity_and_single_invocation
    (w : World) (platform : String) (build_paths : List String) (fs : FS) :
    (build_paths.length = 1 →
      create_fat_library w platform build_paths fs = ⟨fs, [], .ok (build_paths.headD "")⟩) ∧
    (2 ≤ build_paths.length →
      ((create_fat_library w platform build_paths fs).tr.countP isLipoCmd) = 1 ∧
      Event.cmd (["lipo", "-create"] ++ build_paths.map (fun p => p ++ "/libidevice_ffi.a")
          ++ ["-output", build_dir ++ "/" ++ platform ++ "-fat" ++ "/libidevice_ffi.a"])
        ∈ (create_fat_library w platform build_paths fs).tr ∧
      ∀ p ∈ build_paths, (p ++ "/libidevice_ffi.a") ∈
        (["lipo", "-create"] ++ build_paths.map (fun q => q ++ "/libidevice_ffi.a")
          ++ ["-output", build_dir ++ "/" ++ platform ++ "-fat" ++ "/libidevice_ffi.a"])) := by
  constructor
  · intro h
    have h1 : (build_paths.length == 1) = true := by simp [h]
    simp [create_fat_library, h1]
  · intro h
    have h1 : (build_paths.length == 1) = false := by
      simp only [beq_eq_false_iff_ne, ne_eq]
      omega
    refine ⟨?_, ?_, ?_⟩
    · cases hinc : fsExists (fsAdd fs (build_dir ++ "/" ++ platform ++ "-fat"))
          (build_paths.head?.getD "" ++ "/include") <;>
      cases hc : w.cmdOk ("lipo" :: "-create" :: (build_paths.map (fun p => p ++ "/libidevice_ffi.a")
          ++ ["-output", build_dir ++ "/" ++ platform ++ "-fat" ++ "/libidevice_ffi.a"])) <;>
        simp [create_fat_library, h1, hinc, hc, isLipoCmd]
    · cases hinc : fsExists (fsAdd fs (build_dir ++ "/" ++ platform ++ "-fat"))
          (build_paths.head?.getD "" ++ "/include") <;>
      cases hc : w.cmdOk ("lipo" :: "-create" :: (build_paths.map (fun p => p ++ "/libidevice_ffi.a")
          ++ ["-output", build_dir ++ "/" ++ platform ++ "-fat" ++ "/libidevice_ffi.a"])) <;>
        simp [create_fat_library, h1, hinc, hc]
    · intro p hp
      simp only [List.mem_append, List.mem_map]
      exact Or.inl (Or.inr ⟨p, hp, rfl⟩)

/-- Witness for C6: both laws at concrete inputs. -/
theorem fat_library_identity_and_single_invocation_witness :
    (create_fat_library wAllOk "macosx" ["/b1"] [] = ⟨[], [], .ok "/b1"⟩) ∧
    ((create_fat_library wAllOk "macosx" ["/b1", "/b2"] []).tr.countP isLipoCmd) = 1 :=
  ⟨(fat_library_identity_and_single_invocation wAllOk "macosx" ["/b1"] []).1 rfl,
   ((fat_library_identity_and_single_invocation wAllOk "macosx" ["/b1", "/b2"] []).2 (by decide)).1⟩

/-- The manifest the Bundle Assembler collects never has more entries
than platforms passed in. -/
theorem xc_loop_length_le (w : World) (xcp : String) :
    ∀ (builds : List (String × String)) (fs : FS) (r : List LibraryEntry),
      (xc_loop w xcp builds fs).out = .ok r → r.length ≤ builds.length := by
  intro builds
  induction builds with
  | nil =>
    intro fs r h
    simp [xc_loop] at h
    subst h
    simp
  | cons pb rest ih =>
    rcases pb with ⟨platform, build_path⟩
    intro fs r h
    simp only [xc_loop, run_bind] at h
    rcases he : (xc_entry w xcp platform build_path fs).out with e | entry
    · rw [he] at h
      simp at h
    · rw [he] at h
      simp only at h
      rcases hl : (xc_loop w xcp rest ((xc_entry w xcp platform build_path fs).fs)).out
          with e2 | rest'
      · rw [hl] at h
        simp at h
      · rw [hl] at h
        simp only at h
        cases entry with
        | none =>
          simp at h
          subst h
          exact Nat.le_succ_of_le (ih _ _ hl)
        | some e =>
          simp at h
          subst h
          simpa using Nat.succ_le_succ (ih _ _ hl)

/-- C10: In the Bundle Assembler, a platform entry whose Build Output
directory does not hold libidevice_ffi.a is silently skipped: processing
it changes nothing (no events, no filesystem change, no manifest entry),
the loop behaves as if the entry were absent, and the manifest may hold
fewer entries than platforms passed in. -/
theorem missing_library_entry_skipped
    (w : World) (xcp platform build_path : String) (fs : FS) :
    (fsExists fs (build_path ++ "/libidevice_ffi.a") = false →
      xc_entry w xcp platform build_path fs = ⟨fs, [], .ok none⟩) ∧
    (fsExists fs (build_path ++ "/libidevice_ffi.a") = false →
      ∀ rest, xc_loop w xcp ((platform, build_path) :: rest) fs = xc_loop w xcp rest fs) ∧
    (∀ builds r, (xc_loop w xcp builds fs).out = .ok r → r.length ≤ builds.length) := by
  refine ⟨?_, ?_, fun builds r h => xc_loop_length_le w xcp builds fs r h⟩
  · intro h
    simp [xc_entry, h]
  · intro h rest
    have h1 : xc_entry w xcp platform build_path fs = ⟨fs, [], .ok none⟩ := by
      simp [xc_entry, h]
    simp only [xc_loop, run_bind, h1]
    rcases hres : xc_loop w xcp rest fs with ⟨fs2, tr2, out2⟩
    cases out2 <;> simp

/-- Witness for C10 at a concrete filesystem with no built library. -/
theorem missing_library_entry_skipped_witness :
    xc_entry wAllOk idevice_xcframework_path "iphoneos" "/b" [] = ⟨[], [], .ok none⟩ ∧
    xc_loop wAllOk idevice_xcframework_path [("iphoneos", "/b")] [] =
      xc_loop wAllOk idevice_xcframework_path [] [] :=
  ⟨(missing_library_entry_skipped wAllOk idevice_xcframework_path "iphoneos" "/b" []).1 (by decide),
   (missing_library_entry_skipped wAllOk idevice_xcframework_path "iphoneos" "/b" []).2.1
     (by decide) []⟩

/-- Deleting a tree removes its root: the path no longer exists. -/
theorem fsExists_fsRmtree_self (fs : FS) (p : String) : fsExists (fsRmtree fs p) p = false := by
  have hroot : underPath p p = true := by simp [underPath]
  simp only [fsExists, fsRmtree]
  rw [Bool.eq_false_iff]
  intro hc
  have hmem : p ∈ fs.filter (fun q => !(underPath p q)) := by
    simpa [List.elem_iff] using hc
  have := List.of_mem_filter hmem
  rw [hroot] at this
  simp at this

/-- The final metadata of one member after the fixer's `vtool` pass:
rewritten to platform 3 / 12.0 when the call succeeds, kept otherwise. -/
def vtool_fixed (w : World) (temp_dir : String) (m : ObjMember) : ObjMember :=
  if w.cmdOk (vtool_cmd (temp_dir ++ "/" ++ m.name)) then
    { m with platform := 3, minos := "12.0", sdk := "12.0" }
  else m

/-- The per-member loop never raises, leaves the filesystem unchanged,
and returns every member, each rewritten or kept per `vtool_fixed`. -/
theorem vtoolLoop_spec (w : World) (temp_dir : String) :
    ∀ (ms : List ObjMember) (fs : FS),
      (vtoolLoop w temp_dir ms fs).out = .ok (ms.map (vtool_fixed w temp_dir)) ∧
      (vtoolLoop w temp_dir ms fs).fs = fs := by
  intro ms
  induction ms with
  | nil => intro fs; simp [vtoolLoop]
  | cons m rest ih =>
    intro fs
    simp only [vtoolLoop, run_bind, run_tryCatchCPE, run_run_command, run_emit, run_pure]
    cases hc : w.cmdOk (vtool_cmd (temp_dir ++ "/" ++ m.name)) <;>
      simp [hc, vtool_fixed, (ih fs).1, (ih fs).2]

/-- C5 (amended): provided the archiver's extract and recreate
invocations succeed, the Metadata Fixer recreates the archive with
exactly one member per object-file (`*.o`) member of the input archive;
a member whose `vtool` rewrite fails is included with its original
metadata, and a member whose rewrite succeeds carries platform 3 with
version 12.0. -/
theorem fixer_preserves_object_members
    (w : World) (lib_path platform : String) (fs : FS)
    (harx : w.cmdOk ["ar", "x", lib_path] = true)
    (harcs : w.cmdOk ("ar" :: "rcs" :: lib_path ::
      ((w.arMembers lib_path).filter (fun m => strEndsWith m.name ".o")).map
        (fun m => parentDir lib_path ++ "/temp_objects" ++ "/" ++ m.name)) = true) :
    (fix_tvos_platform_metadata w lib_path platform fs).out =
      .ok (((w.arMembers lib_path).filter (fun m => strEndsWith m.name ".o")).map
        (vtool_fixed w (parentDir lib_path ++ "/temp_objects"))) ∧
    (((w.arMembers lib_path).filter (fun m => strEndsWith m.name ".o")).map
        (vtool_fixed w (parentDir lib_path ++ "/temp_objects"))).length =
      ((w.arMembers lib_path).filter (fun m => strEndsWith m.name ".o")).length ∧
    (∀ m, w.cmdOk (vtool_cmd (parentDir lib_path ++ "/temp_objects" ++ "/" ++ m.name)) = false →
      vtool_fixed w (parentDir lib_path ++ "/temp_objects") m = m) ∧
    (∀ m, w.cmdOk (vtool_cmd (parentDir lib_path ++ "/temp_objects" ++ "/" ++ m.name)) = true →
      vtool_fixed w (parentDir lib_path ++ "/temp_objects") m =
        { m with platform := 3, minos := "12.0", sdk := "12.0" }) := by
  refine ⟨?_, by simp, fun m hm => by simp [vtool_fixed, hm], fun m hm => by simp [vtool_fixed, hm]⟩
  have hloop := vtoolLoop_spec w (parentDir lib_path ++ "/temp_objects")
    ((w.arMembers lib_path).filter (fun m => strEndsWith m.name ".o"))
  cases htex : fsExists fs (parentDir lib_path ++ "/temp_objects") <;>
    simp [fix_tvos_platform_metadata, htex, harx, fsExists_fsRmtree_self, harcs,
      (hloop _).1, (hloop _).2]

/-- An archive holding two object members and one non-object member,
where `vtool` fails on `b.o` and every other command succeeds. -/
def wFix : World :=
  { cmdOk := fun argv =>
      if argv.head? == some "vtool" then !(argv.contains "/lib/temp_objects/b.o") else true,
    cmdStdout := fun _ => "", cmdStderr := fun _ => "",
    builtLibExists := fun _ => true,
    arMembers := fun _ =>
      [⟨"a.o", 2, "11.0", "11.0"⟩, ⟨"b.o", 2, "11.0", "11.0"⟩, ⟨"note.txt", 2, "11.0", "11.0"⟩] }

/-- C5 counterexample: on an input archive with three members
(`a.o`, `b.o`, `note.txt`) the recreated archive holds only the two
`*.o` members — the non-object member is dropped, so the output member
count (2) differs from the input member count (3).  The member whose
rewrite failed (`b.o`) keeps its original metadata, while `a.o` is
rewritten to platform 3 / 12.0. -/
theorem fixer_drops_non_object_member :
    (fix_tvos_platform_metadata wFix "/lib/libidevice_ffi.a" "appletvos" []).out =
      .ok [⟨"a.o", 3, "12.0", "12.0"⟩, ⟨"b.o", 2, "11.0", "11.0"⟩] ∧
    (wFix.arMembers "/lib/libidevice_ffi.a").length = 3 ∧
    ¬ (2 = 3) :=
  ⟨by decide, by decide, by decide⟩

/-- Witness for C5 at the concrete archive. -/
theorem fixer_preserves_object_members_witness :
    (fix_tvos_platform_metadata wFix "/lib/libidevice_ffi.a" "appletvos" []).out =
      .ok (((wFix.arMembers "/lib/libidevice_ffi.a").filter
          (fun m => strEndsWith m.name ".o")).map
        (vtool_fixed wFix (parentDir "/lib/libidevice_ffi.a" ++ "/temp_objects"))) :=
  (fixer_preserves_object_members wFix "/lib/libidevice_ffi.a" "appletvos" []
    (by decide) (by decide)).1

/-- C7: On every run the Bundle Assembler first deletes any pre-existing
`idevice_ffi.xcframework` directory: its entire result (filesystem,
trace, value) is the same as if the prior bundle subtree had already
been removed, so the resulting bundle holds only what this run creates —
concretely, a stale subdirectory of a prior bundle is gone afterwards. -/
theorem bundle_rebuilt_fresh :
    (∀ (w : World) (platform_builds : List (String × String)) (fs : FS),
      fsExists fs idevice_xcframework_path = true →
      create_xcframework w platform_builds fs =
        create_xcframework w platform_builds (fsRmtree fs idevice_xcframework_path)) ∧
    fsExists
      (create_xcframework wAllOk []
        [idevice_xcframework_path ++ "/stale-dir", idevice_xcframework_path]).fs
      (idevice_xcframework_path ++ "/stale-dir") = false := by
  constructor
  · intro w platform_builds fs h
    simp [create_xcframework, h, fsExists_fsRmtree_self]
  · decide

/-- Witness for C7 at a concrete filesystem holding a prior bundle. -/
theorem bundle_rebuilt_fresh_witness :
    create_xcframework wAllOk [] [idevice_xcframework_path] =
      create_xcframework wAllOk []
        (fsRmtree [idevice_xcframework_path] idevice_xcframework_path) :=
  bundle_rebuilt_fresh.1 wAllOk [] [idevice_xcframework_path] (by decide)

/-- `finish_entry` records no events (it only touches the filesystem). -/
theorem finish_entry_tr (xcp lib hdr ident plat : String) (archs : List String)
    (var : Option String) (fs : FS) :
    (finish_entry xcp lib hdr ident plat archs var fs).tr = [] := by
  unfold finish_entry
  cases hmk : fsExists fs (xcp ++ "/" ++ ident) <;>
    cases hh : fsExists (fsAdd (fsAdd fs (xcp ++ "/" ++ ident))
      (xcp ++ "/" ++ ident ++ "/libidevice_ffi.a")) hdr <;>
    simp [hmk, hh]

/-- A manifest entry produced by `finish_entry` records exactly the
architecture list it was given. -/
theorem finish_entry_out (xcp lib hdr ident plat : String) (archs : List String)
    (var : Option String) (fs : FS) :
    ∀ e, (finish_entry xcp lib hdr ident plat archs var fs).out = .ok (some e) →
      e.supportedArchitectures = archs := by
  unfold finish_entry
  cases hmk : fsExists fs (xcp ++ "/" ++ ident) <;>
    cases hh : fsExists (fsAdd (fsAdd fs (xcp ++ "/" ++ ident))
      (xcp ++ "/" ++ ident ++ "/libidevice_ffi.a")) hdr <;>
    simp [hmk, hh]

/-- The trace `get_lib_archs` leaves: the lipo invocation, plus failure
logs when the command fails. -/
def lipoTrace (w : World) (lib_path : String) : Trace :=
  if w.cmdOk ["lipo", "-info", lib_path] then
    [.log "Running command", .cmd ["lipo", "-info", lib_path]]
  else
    [.log "Running command", .cmd ["lipo", "-info", lib_path], .log "Command failed",
     .log ("stdout: " ++ w.cmdStdout ["lipo", "-info", lib_path]),
     .log ("stderr: " ++ w.cmdStderr ["lipo", "-info", lib_path])]

/-- Closed form of `detected_sorted`: it always succeeds, never touches
the filesystem, records the lipo invocation, and returns the sorted
detected architectures with the static fallback exactly on an empty
detection. -/
theorem detected_sorted_run (w : World) (platform lib_path : String) (fs : FS) :
    detected_sorted w platform lib_path fs =
      ⟨fs, lipoTrace w lib_path,
        .ok (sortStr (if (lipo_detected w lib_path).isEmpty
          then (platformConfig platform).archs.getD []
          else lipo_detected w lib_path))⟩ := by
  cases hc : w.cmdOk ["lipo", "-info", lib_path] <;>
    simp [detected_sorted, get_lib_archs, lipo_detected, lipoTrace, hc]

/-- C2 (amended): for the four multi-architecture platform keys the
Bundle Assembler derives SupportedArchitectures by invoking lipo on the
built library, falling back to the static platform configuration exactly
when lipo reports no architectures; for the single-architecture keys
iphoneos and appletvos the list is the fixed ["arm64"] and lipo is not
invoked. -/
theorem supported_archs_lipo_derived
    (w : World) (xcp build_path : String) (fs : FS)
    (hlib : fsExists fs (build_path ++ "/libidevice_ffi.a") = true) :
    (∀ platform ∈ (["iphonesimulator", "appletvsimulator", "macosx", "maccatalyst"] : List String),
      Event.cmd ["lipo", "-info", build_path ++ "/libidevice_ffi.a"]
        ∈ (xc_entry w xcp platform build_path fs).tr ∧
      ∀ e, (xc_entry w xcp platform build_path fs).out = .ok (some e) →
        e.supportedArchitectures =
          sortStr (if (lipo_detected w (build_path ++ "/libidevice_ffi.a")).isEmpty
            then (platformConfig platform).archs.getD []
            else lipo_detected w (build_path ++ "/libidevice_ffi.a"))) ∧
    (∀ platform ∈ (["iphoneos", "appletvos"] : List String),
      ((xc_entry w xcp platform build_path fs).tr.countP isLipoCmd) = 0 ∧
      ∀ e, (xc_entry w xcp platform build_path fs).out = .ok (some e) →
        e.supportedArchitectures = ["arm64"]) := by
  constructor
  · intro platform hp
    have hcases := hp
    simp only [List.mem_cons, List.mem_singleton, List.not_mem_nil, or_false] at hcases
    rcases hcases with h | h | h | h <;> subst h <;>
    refine ⟨?_, ?_⟩ <;>
      (cases hc : w.cmdOk ["lipo", "-info", build_path ++ "/libidevice_ffi.a"] <;>
        simp [xc_entry, hlib, detected_sorted_run, finish_entry_tr, lipoTrace, hc]) <;>
      exact fun e he => finish_entry_out _ _ _ _ _ _ _ _ e he
  · intro platform hp
    have hcases := hp
    simp only [List.mem_cons, List.mem_singleton, List.not_mem_nil, or_false] at hcases
    rcases hcases with h | h <;> subst h <;>
    refine ⟨?_, ?_⟩ <;>
      simp [xc_entry, hlib, finish_entry_tr] <;>
      exact fun e he => finish_entry_out _ _ _ _ _ _ _ _ e he

/-- C2 counterexample: for the processed "iphoneos" entry the Bundle
Assembler records no lipo invocation at all, and the manifest entry's
SupportedArchitectures is the fixed ["arm64"] — the value of the static
platform configuration — so the architecture list is not derived by
invoking the introspection tool for every processed platform entry. -/
theorem iphoneos_archs_without_lipo :
    ((xc_entry wAllOk idevice_xcframework_path "iphoneos" "/b"
        ["/b/libidevice_ffi.a"]).tr.countP isLipoCmd) = 0 ∧
    (xc_entry wAllOk idevice_xcframework_path "iphoneos" "/b" ["/b/libidevice_ffi.a"]).out =
      .ok (some
        { binaryPath := "libidevice_ffi.a", headersPath := "Headers",
          libraryIdentifier := "ios-arm64", libraryPath := "libidevice_ffi.a",
          supportedArchitectures := ["arm64"], supportedPlatform := "ios",
          supportedPlatformVariant := none }) ∧
    (platformConfig "iphoneos").arch = some "arm64" :=
  ⟨by decide, by decide, by decide⟩

/-- Witness for C2 at a concrete filesystem holding the built library. -/
theorem supported_archs_lipo_derived_witness :
    Event.cmd ["lipo", "-info", "/b/libidevice_ffi.a"]
      ∈ (xc_entry wAllOk idevice_xcframework_path "iphonesimulator" "/b"
          ["/b/libidevice_ffi.a"]).tr :=
  ((supported_archs_lipo_derived wAllOk idevice_xcframework_path "/b"
    ["/b/libidevice_ffi.a"] (by decide)).1 "iphonesimulator" (by decide)).1

/-- Discarding the value of `run_command` still only fails with
`CalledProcessError`. -/
theorem failsOnlyCPE_run_discard (w : World) (argv : List String) :
    FailsOnlyCPE (do let _ ← run_command w argv; Pure.pure ()) := by
  intro fs e
  cases hc : w.cmdOk argv <;> simp [hc]
  intro he
  exact ⟨argv, he.symm⟩

/-- One guarded install attempt (`try/except CalledProcessError` around
a `rustup` call with a log handler) never raises. -/
theorem neverFails_install_attempt (w : World) (argv : List String) (msg : String) :
    NeverFails (tryCatchCPE (do let _ ← run_command w argv; Pure.pure ())
      (fun _ => emit (.log msg))) :=
  neverFails_tryCatchCPE (failsOnlyCPE_run_discard w argv) (fun _ => neverFails_emit _)

/-- Every target of the list is attempted by the install loop: its
`rustup target add` invocation is in the trace, whatever fails. -/
theorem addTargetsLoop_has (w : World) :
    ∀ (ts : List String), ∀ t ∈ ts,
      TraceHas (.cmd ["rustup", "target", "add", t]) (addTargetsLoop w ts) := by
  intro ts
  induction ts with
  | nil => intro t ht; cases ht
  | cons u rest ih =>
    intro t ht
    rcases List.mem_cons.1 ht with h | h
    · subst h
      exact traceHas_bind_left
        (traceHas_tryCatchCPE (traceHas_bind_left (traceHas_run_command w _)))
    · exact traceHas_bind_right (neverFails_install_attempt w _ _) (fun _ => ih t h)

/-- The install loop never raises. -/
theorem addTargetsLoop_neverFails (w : World) :
    ∀ (ts : List String), NeverFails (addTargetsLoop w ts) := by
  intro ts
  induction ts with
  | nil => exact neverFails_pure ()
  | cons u rest ih =>
    exact neverFails_bind (neverFails_install_attempt w _ _) (fun _ => ih)

/-- `install_rust_components` never raises. -/
theorem install_rust_components_neverFails (w : World) :
    NeverFails (install_rust_components w) :=
  neverFails_bind (neverFails_install_attempt w _ _)
    (fun _ => neverFails_bind (neverFails_tryCatchAll (fun _ => neverFails_emit _))
      (fun _ => neverFails_emit _))

/-- The `rust-src` component install is always attempted. -/
theorem install_rust_components_has_component (w : World) :
    TraceHas (.cmd ["rustup", "component", "add", "rust-src", "--toolchain", "nightly"])
      (install_rust_components w) :=
  traceHas_bind_left (traceHas_tryCatchCPE (traceHas_bind_left (traceHas_run_command w _)))

/-- Every one of the seven stable targets is always attempted. -/
theorem install_rust_components_has_target (w : World) :
    ∀ t ∈ rustupEnvTargets,
      TraceHas (.cmd ["rustup", "target", "add", t]) (install_rust_components w) := by
  intro t ht
  exact traceHas_bind_right (neverFails_install_attempt w _ _)
    (fun _ => traceHas_bind_left (traceHas_tryCatchAll (addTargetsLoop_has w _ t ht)))

/-- The filesystem state after the cleanup half of preparation. -/
def prepCleanupFS (fs : FS) : FS :=
  fsAdd
    (let fs2 := fsAdd (if fsExists fs build_dir then fsRmtree fs build_dir else fs) xcframework_dir
     if fsExists fs2 idevice_xcframework_path then fsRmtree fs2 idevice_xcframework_path else fs2)
    build_dir

/-- Cleanup is silent and total: running it is running the installs on
the cleaned filesystem. -/
theorem prepare_cleanup_run (w : World) (fs : FS) :
    prepare_cleanup_and_install w fs = install_rust_components w (prepCleanupFS fs) := by
  unfold prepCleanupFS
  cases hb : fsExists fs build_dir
  · cases hx : fsExists (fsAdd fs xcframework_dir) idevice_xcframework_path <;>
      simp [prepare_cleanup_and_install, hb, hx]
  · cases hx : fsExists (fsAdd (fsRmtree fs build_dir) xcframework_dir)
        idevice_xcframework_path <;>
      simp [prepare_cleanup_and_install, hb, hx]

/-- When the ffi directory exists, preparation is cleanup plus installs. -/
theorem prepare_run (w : World) (fs : FS) (hffi : fsExists fs idevice_ffi_dir = true) :
    prepare_build_environment w fs = install_rust_components w (prepCleanupFS fs) := by
  simp [prepare_build_environment, hffi, prepare_cleanup_run]

/-- C9: During environment preparation, every toolchain installation
attempt (the standard-library source component and each of the seven
target triples) is independent: whatever subset of the attempts fails,
preparation still succeeds (no install failure aborts the run), the
component install is attempted, and every one of the seven target
installs is attempted. -/
theorem install_attempts_independent (w : World) (fs : FS)
    (hffi : fsExists fs idevice_ffi_dir = true) :
    (∃ u, (prepare_build_environment w fs).out = .ok u) ∧
    Event.cmd ["rustup", "component", "add", "rust-src", "--toolchain", "nightly"]
      ∈ (prepare_build_environment w fs).tr ∧
    ∀ t ∈ rustupEnvTargets,
      Event.cmd ["rustup", "target", "add", t] ∈ (prepare_build_environment w fs).tr := by
  rw [prepare_run w fs hffi]
  exact ⟨install_rust_components_neverFails w _,
    install_rust_components_has_component w _,
    fun t ht => install_rust_components_has_target w t ht _⟩

/-- A world in which every `rustup` invocation fails. -/
def wNoRustup : World :=
  { cmdOk := fun argv => argv.head? != some "rustup",
    cmdStdout := fun _ => "", cmdStderr := fun _ => "",
    builtLibExists := fun _ => true, arMembers := fun _ => [] }

/-- Witness for C9: even when every install attempt fails, preparation
succeeds and all eight attempts are in the trace. -/
theorem install_attempts_independent_witness :
    (∃ u, (prepare_build_environment wNoRustup [idevice_ffi_dir]).out = .ok u) ∧
    Event.cmd ["rustup", "component", "add", "rust-src", "--toolchain", "nightly"]
      ∈ (prepare_build_environment wNoRustup [idevice_ffi_dir]).tr ∧
    ∀ t ∈ rustupEnvTargets,
      Event.cmd ["rustup", "target", "add", t]
        ∈ (prepare_build_environment wNoRustup [idevice_ffi_dir]).tr :=
  install_attempts_independent wNoRustup [idevice_ffi_dir] (by decide)

def isDarwinCargo (e : Event) : Bool :=
  match e with
  | .cmd argv =>
    argv.head? == some "cargo" &&
      (argv.contains "aarch64-apple-darwin" || argv.contains "x86_64-apple-darwin")
  | _ => false

/-- Events compatible with the run having aborted before the macosx
build and before the manifest write: no Info.plist write and no cargo
invocation for a darwin target. -/
def goodC4 (e : Event) : Bool := !(isPlistWrite e) && !(isDarwinCargo e)

/-- When the appletvos compiler invocation fails, building the appletvos
platform raises on every filesystem. -/
theorem build_appletvos_fails (w : World)
    (htv : w.cmdOk (cargo_cmd_for "aarch64-apple-tvos") = false) :
    AlwaysFails (build_platform w "appletvos") := by
  intro fs
  have hcfg : build_platform w "appletvos" =
      build_for_target w "appletvos" "aarch64-apple-tvos" "arm64" := rfl
  rw [hcfg]
  simp [build_for_target, htv]

/-- A failing head platform makes the whole build loop raise. -/
theorem buildAllLoop_fails_head (w : World) (p : String) (cfg : PlatformConfig)
    (rest : List (String × PlatformConfig)) (hp : AlwaysFails (build_platform w p)) :
    AlwaysFails (buildAllLoop w ((p, cfg) :: rest)) := by
  unfold buildAllLoop
  exact alwaysFails_bind_univ (fun _ => alwaysFails_bind_left hp)

/-- A failing tail makes the whole build loop raise, whatever the head
does. -/
theorem buildAllLoop_fails_cons (w : World) (p : String) (cfg : PlatformConfig)
    (rest : List (String × PlatformConfig)) (hrest : AlwaysFails (buildAllLoop w rest)) :
    AlwaysFails (buildAllLoop w ((p, cfg) :: rest)) := by
  unfold buildAllLoop
  exact alwaysFails_bind_univ
    (fun _ => alwaysFails_bind_univ (fun _ => alwaysFails_bind_left hrest))

/-- With the appletvos compiler failing, the full build loop raises. -/
theorem buildAllLoop_fails (w : World)
    (htv : w.cmdOk (cargo_cmd_for "aarch64-apple-tvos") = false) :
    AlwaysFails (buildAllLoop w platforms) := by
  unfold platforms
  exact buildAllLoop_fails_cons w _ _ _
    (buildAllLoop_fails_cons w _ _ _
      (buildAllLoop_fails_head w _ _ _ (build_appletvos_fails w htv)))

/-- With the appletvos compiler failing, the whole guarded body of a
full run raises. -/
theorem mainBody_fails (w : World)
    (htv : w.cmdOk (cargo_cmd_for "aarch64-apple-tvos") = false) :
    AlwaysFails (mainBody w none) := by
  unfold mainBody build_all_platforms
  exact alwaysFails_bind_univ (fun _ => alwaysFails_bind_univ
    (fun _ => alwaysFails_bind_left (alwaysFails_bind_left (buildAllLoop_fails w htv))))

theorem goodC4_log (s : String) : goodC4 (.log s) = true := rfl

theorem goodC4_rustup_target (t : String) : goodC4 (.cmd ["rustup", "target", "add", t]) = true := by
  simp [goodC4, isPlistWrite, isDarwinCargo]

/-- Every trace of the per-target install loop is free of plist writes
and darwin cargo invocations. -/
theorem addTargetsLoop_traceAll {p : Event → Bool} (w : World)
    (hl : ∀ s, p (.log s) = true)
    (hts : ∀ t : String, p (.cmd ["rustup", "target", "add", t]) = true) :
    ∀ ts, TraceAll p (addTargetsLoop w ts) := by
  intro ts
  induction ts with
  | nil => exact traceAll_pure _
  | cons u rest ih =>
    exact traceAll_bind
      (traceAll_tryCatchCPE
        (traceAll_bind (traceAll_run_command (hts u) hl) (fun _ => traceAll_pure _))
        (fun _ => traceAll_emit (hl _)))
      (fun _ => ih)

/-- Trace property of the whole install phase, for any predicate that
accepts logs, the component install and the target installs. -/
theorem install_traceAll {p : Event → Bool} (w : World)
    (hl : ∀ s, p (.log s) = true)
    (hcomp : p (.cmd ["rustup", "component", "add", "rust-src", "--toolchain", "nightly"]) = true)
    (hts : ∀ t : String, p (.cmd ["rustup", "target", "add", t]) = true) :
    TraceAll p (install_rust_components w) :=
  traceAll_bind
    (traceAll_tryCatchCPE
      (traceAll_bind (traceAll_run_command hcomp hl) (fun _ => traceAll_pure _))
      (fun _ => traceAll_emit (hl _)))
    (fun _ => traceAll_bind
      (traceAll_tryCatchAll (addTargetsLoop_traceAll w hl hts _) (fun _ => traceAll_emit (hl _)))
      (fun _ => traceAll_emit (hl _)))

/-- Environment preparation writes no plist and runs no darwin cargo. -/
theorem prepare_traceAll_goodC4 (w : World) : TraceAll goodC4 (prepare_build_environment w) := by
  intro fs
  cases hffi : fsExists fs idevice_ffi_dir
  · simp [prepare_build_environment, hffi]
  · rw [prepare_run w fs hffi]
    exact install_traceAll w goodC4_log (by decide) goodC4_rustup_target _

/-- Trace property of one per-target build: its only command is its
cargo invocation. -/
theorem build_for_target_traceAll {p : Event → Bool} (w : World)
    (platform rust_target arch : String)
    (hc : p (.cmd (cargo_cmd_for rust_target)) = true) (hl : ∀ s, p (.log s) = true) :
    TraceAll p (build_for_target w platform rust_target arch) := by
  intro fs
  cases hcmd : w.cmdOk (cargo_cmd_for rust_target) <;>
    simp [build_for_target, hcmd, hc, hl] <;>
    repeat' (split_ifs <;> try simp [hc, hl])

/-- Trace property of the multi-target build loop. -/
theorem buildTargetsLoop_traceAll {p : Event → Bool} (w : World) (platform : String)
    (hl : ∀ s, p (.log s) = true) :
    ∀ ts : List (String × String),
      (∀ ta ∈ ts, p (.cmd (cargo_cmd_for ta.1)) = true) →
      TraceAll p (buildTargetsLoop w platform ts) := by
  intro ts
  induction ts with
  | nil => intro _; exact traceAll_pure _
  | cons ta rest ih =>
    intro hts
    rcases ta with ⟨t, a⟩
    exact traceAll_bind (build_for_target_traceAll w platform t a (hts (t, a) (by simp)) hl)
      (fun _ => traceAll_bind (ih (fun ta hta => hts ta (by simp [hta]))) (fun _ => traceAll_pure _))

/-- Trace property of the Fat-Library Combiner: its only command is its
lipo invocation. -/
theorem create_fat_library_traceAll {p : Event → Bool} (w : World) (platform : String)
    (bps : List String)
    (hlip : p (.cmd ("lipo" :: "-create" :: (bps.map (fun q => q ++ "/libidevice_ffi.a")
      ++ ["-output", build_dir ++ "/" ++ platform ++ "-fat" ++ "/libidevice_ffi.a"]))) = true)
    (hl : ∀ s, p (.log s) = true) :
    TraceAll p (create_fat_library w platform bps) := by
  intro fs
  cases hone : bps.length == 1 <;>
  cases hinc : fsExists (fsAdd fs (build_dir ++ "/" ++ platform ++ "-fat"))
      (bps.head?.getD "" ++ "/include") <;>
  cases hcmd : w.cmdOk ("lipo" :: "-create" :: (bps.map (fun q => q ++ "/libidevice_ffi.a")
      ++ ["-output", build_dir ++ "/" ++ platform ++ "-fat" ++ "/libidevice_ffi.a"])) <;>
    simp [create_fat_library, hone, hinc, hcmd, hlip, hl]

/-- Adding one platform whose build may succeed in front of a loop with
the trace property preserves it. -/
theorem buildAllLoop_traceAll_cons {p : Event → Bool} (w : World) (pf : String)
    (cfg : PlatformConfig) (rest : List (String × PlatformConfig))
    (hl : ∀ s, p (.log s) = true)
    (hp : TraceAll p (build_platform w pf))
    (hrest : TraceAll p (buildAllLoop w rest)) :
    TraceAll p (buildAllLoop w ((pf, cfg) :: rest)) := by
  unfold buildAllLoop
  exact traceAll_bind (traceAll_emit (hl _))
    (fun _ => traceAll_bind hp
      (fun _ => traceAll_bind hrest (fun _ => traceAll_pure _)))

/-- When the head platform's build always raises, the loop's trace is
the head's trace. -/
theorem buildAllLoop_traceAll_fail_head {p : Event → Bool} (w : World) (pf : String)
    (cfg : PlatformConfig) (rest : List (String × PlatformConfig))
    (hl : ∀ s, p (.log s) = true)
    (hp : TraceAll p (build_platform w pf))
    (hfail : AlwaysFails (build_platform w pf)) :
    TraceAll p (buildAllLoop w ((pf, cfg) :: rest)) := by
  unfold buildAllLoop
  exact traceAll_bind (traceAll_emit (hl _)) (fun _ => traceAll_bind_fails hfail hp)

/-- With the appletvos compiler failing, the full-run build loop writes
no plist and never invokes cargo for a darwin target. -/
theorem buildAllLoop_traceAll_goodC4 (w : World)
    (htv : w.cmdOk (cargo_cmd_for "aarch64-apple-tvos") = false) :
    TraceAll goodC4 (buildAllLoop w platforms) := by
  have hiphoneos : TraceAll goodC4 (build_platform w "iphoneos") := by
    have hrfl : build_platform w "iphoneos" =
        build_for_target w "iphoneos" "aarch64-apple-ios" "arm64" := rfl
    rw [hrfl]
    exact build_for_target_traceAll w _ _ _ (by decide) goodC4_log
  have hiphonesim : TraceAll goodC4 (build_platform w "iphonesimulator") := by
    have hrfl : build_platform w "iphonesimulator" =
        (buildTargetsLoop w "iphonesimulator"
            [("aarch64-apple-ios-sim", "arm64"), ("x86_64-apple-ios", "x86_64")] >>=
          fun build_paths => create_fat_library w "iphonesimulator" build_paths) := rfl
    rw [hrfl]
    refine traceAll_bind (buildTargetsLoop_traceAll w _ goodC4_log _ ?_) (fun bps => ?_)
    · intro ta hta
      simp only [List.mem_cons, List.mem_singleton, List.not_mem_nil, or_false] at hta
      rcases hta with h | h <;> subst h <;> decide
    · exact create_fat_library_traceAll w _ bps
        (by simp [goodC4, isPlistWrite, isDarwinCargo]) goodC4_log
  have htvos : TraceAll goodC4 (build_platform w "appletvos") := by
    have hrfl : build_platform w "appletvos" =
        build_for_target w "appletvos" "aarch64-apple-tvos" "arm64" := rfl
    rw [hrfl]
    exact build_for_target_traceAll w _ _ _ (by decide) goodC4_log
  unfold platforms
  exact buildAllLoop_traceAll_cons w _ _ _ goodC4_log hiphoneos
    (buildAllLoop_traceAll_cons w _ _ _ goodC4_log hiphonesim
      (buildAllLoop_traceAll_fail_head w _ _ _ goodC4_log htvos
        (build_appletvos_fails w htv)))

/-- With the appletvos compiler failing, the whole guarded body of a
full run writes no plist and never invokes cargo for a darwin target. -/
theorem mainBody_traceAll_goodC4 (w : World)
    (htv : w.cmdOk (cargo_cmd_for "aarch64-apple-tvos") = false) :
    TraceAll goodC4 (mainBody w none) := by
  unfold mainBody build_all_platforms
  exact traceAll_bind (traceAll_emit (goodC4_log _))
    (fun _ => traceAll_bind (prepare_traceAll_goodC4 w)
      (fun _ => traceAll_bind_fails
        (alwaysFails_bind_left (buildAllLoop_fails w htv))
        (traceAll_bind_fails (buildAllLoop_fails w htv)
          (buildAllLoop_traceAll_goodC4 w htv))))

/-- C4: If the compiler invocation for platform "appletvos" exits
non-zero during a full (all-platforms) run, the process terminates with
exit status 1, no Info.plist is ever written, and no cargo invocation
for a darwin (macosx) target ever happens — the "macosx" build that
would follow in iteration order is never attempted. -/
theorem appletvos_failure_aborts_run (w : World) (fs : FS)
    (htv : w.cmdOk (cargo_cmd_for "aarch64-apple-tvos") = false) :
    (mainRun w none fs).out = .ok 1 ∧
    ((mainRun w none fs).tr.countP isPlistWrite) = 0 ∧
    ((mainRun w none fs).tr.countP isDarwinCargo) = 0 := by
  have hall : ((mainRun w none fs).tr.all goodC4) = true := by
    refine traceAll_tryCatchAll (mainBody_traceAll_goodC4 w htv) (fun e => ?_) fs
    exact traceAll_bind (traceAll_emit (goodC4_log _)) (fun _ => traceAll_pure _)
  have hgood : ∀ e ∈ (mainRun w none fs).tr, goodC4 e = true := List.all_eq_true.1 hall
  refine ⟨?_, ?_, ?_⟩
  · simp only [mainRun, run_tryCatchAll]
    rcases mainBody_fails w htv fs with ⟨e, he⟩
    rw [he]
    simp
  · rw [List.countP_eq_zero]
    intro e he
    have := hgood e he
    simp only [goodC4, Bool.and_eq_true, Bool.not_eq_true'] at this
    simp [this.1]
  · rw [List.countP_eq_zero]
    intro e he
    have := hgood e he
    simp only [goodC4, Bool.and_eq_true, Bool.not_eq_true'] at this
    simp [this.2]

/-- A world in which exactly the appletvos compiler invocation fails. -/
def wTvosFails : World :=
  { cmdOk := fun argv => argv != cargo_cmd_for "aarch64-apple-tvos",
    cmdStdout := fun _ => "", cmdStderr := fun _ => "",
    builtLibExists := fun _ => true, arMembers := fun _ => [] }

/-- Witness for C4 at a concrete world and filesystem. -/
theorem appletvos_failure_aborts_run_witness :
    (mainRun wTvosFails none initFS).out = .ok 1 ∧
    ((mainRun wTvosFails none initFS).tr.countP isPlistWrite) = 0 ∧
    ((mainRun wTvosFails none initFS).tr.countP isDarwinCargo) = 0 :=
  appletvos_failure_aborts_run wTvosFails initFS (by decide)
